import Mathlib

/-!
Shallow embedding of the phloem adaptive suggestion cache, context ledger,
context manager and interactive selector (src/context/cache.rs,
src/context/storage.rs, src/context/manager.rs, src/cli/output.rs).

Conventions of the embedding:
* SQLite timestamps are modelled as `Int` seconds since an epoch;
  `datetime('now', '-7 days')` becomes `now - 604800`.
* SQLite REAL / Rust f32 values (confidence, success_rate) are modelled
  as exact rationals; the decimal literals 0.4, 0.6, 0.7, 0.8 of the
  source become mkRat 4 10 and so on, and SQL float division of two
  integer columns becomes Rat.divInt.
* The suggestions table is a list of records in insertion (rowid) order.
* Strings are handled through their character lists; the embedding is
  faithful for ASCII data (Rust `to_lowercase` / `trim` are Unicode-aware,
  `Char.toLower` / `Char.isWhitespace` agree with them on ASCII).
-/

namespace Phloem

/-! ## String utilities (ASCII fragment of the Rust `str` operations) -/

/-- Rust `str::to_lowercase`, restricted to ASCII. -/
def toLowerStr (s : String) : String := ⟨s.data.map Char.toLower⟩

/-- Character-list trim: drop whitespace from the front and from the back.
Mirrors Rust `str::trim` on ASCII data. -/
def trimList (l : List Char) : List Char :=
  ((l.dropWhile Char.isWhitespace).reverse.dropWhile Char.isWhitespace).reverse

/-- Rust `str::trim`, restricted to ASCII. -/
def trimStr (s : String) : String := ⟨trimList s.data⟩

/-- Substring occurrence test on character lists: some suffix of `hay`
has `needle` as a leading segment. Mirrors Rust `str::contains`. -/
def containsSubAux (needle : List Char) : List Char → Bool
  | [] => needle.isEmpty
  | c :: rest => needle.isPrefixOf (c :: rest) || containsSubAux needle rest

/-- Rust `str::contains` (substring test). -/
def containsStr (hay needle : String) : Bool := containsSubAux needle.data hay.data

/-- Rust `str::starts_with`. -/
def strStartsWith (s p : String) : Bool := p.data.isPrefixOf s.data

/-- Splits a character list at newline characters, keeping empty pieces. -/
def splitNlAux : List Char → List Char → List (List Char)
  | [], cur => [cur.reverse]
  | c :: cs, cur =>
      if c = '\n' then cur.reverse :: splitNlAux cs []
      else splitNlAux cs (c :: cur)

/-- Rust `str::lines` (for `\n`-terminated text without `\r`): split at
newlines, and a trailing newline does not yield a final empty line. -/
def rustLines (s : String) : List String :=
  let parts := splitNlAux s.data []
  let parts := if parts.getLast? = some [] then parts.dropLast else parts
  parts.map (fun l => ⟨l⟩)

/-! ## DefaultHasher: SipHash-1-3 with both keys zero

`CacheManager::hash_prompt` feeds the normalized prompt to
`std::collections::hash_map::DefaultHasher`, which is SipHash-1-3 keyed
with (0, 0); `Hash for str` writes the UTF-8 bytes followed by a 0xff
byte. 64-bit machine words are `Nat` reduced modulo 2^64. -/

/-- 2^64, the modulus of the 64-bit word arithmetic. -/
def w64Mod : Nat := 18446744073709551616

/-- Truncate to a 64-bit word. -/
def w64 (n : Nat) : Nat := n % w64Mod

/-- 64-bit left rotation. -/
def rotl64 (x b : Nat) : Nat := w64 (x <<< b) ||| (x >>> (64 - b))

/-- The SipHash state: four 64-bit words. -/
structure SipState where
  v0 : Nat
  v1 : Nat
  v2 : Nat
  v3 : Nat

/-- One SipRound. -/
def sipRound (s : SipState) : SipState :=
  let v0 := w64 (s.v0 + s.v1)
  let v1 := rotl64 s.v1 13
  let v1 := v1 ^^^ v0
  let v0 := rotl64 v0 32
  let v2 := w64 (s.v2 + s.v3)
  let v3 := rotl64 s.v3 16
  let v3 := v3 ^^^ v2
  let v0 := w64 (v0 + v3)
  let v3 := rotl64 v3 21
  let v3 := v3 ^^^ v0
  let v2 := w64 (v2 + v1)
  let v1 := rotl64 v1 17
  let v1 := v1 ^^^ v2
  let v2 := rotl64 v2 32
  ⟨v0, v1, v2, v3⟩

/-- Iterate SipRound. -/
def sipRounds : Nat → SipState → SipState
  | 0, s => s
  | n + 1, s => sipRounds n (sipRound s)

/-- Little-endian word value of a byte list. -/
def leWord (bs : List Nat) : Nat := bs.foldr (fun b acc => b + 256 * acc) 0

/-- Absorb one message word (c compression rounds). -/
def sipCompress (c : Nat) (s : SipState) (m : Nat) : SipState :=
  let s := { s with v3 := s.v3 ^^^ m }
  let s := sipRounds c s
  { s with v0 := s.v0 ^^^ m }

/-- Absorb all full 8-byte blocks, returning the remainder bytes. -/
def sipBlocks (c : Nat) : SipState → List Nat → SipState × List Nat
  | s, b0 :: b1 :: b2 :: b3 :: b4 :: b5 :: b6 :: b7 :: rest =>
      sipBlocks c (sipCompress c s (leWord [b0, b1, b2, b3, b4, b5, b6, b7])) rest
  | s, rest => (s, rest)

/-- SipHash with c compression rounds and d finalization rounds over a
byte stream, keyed by two 64-bit words. -/
def siphash (c d : Nat) (k0 k1 : Nat) (msg : List Nat) : Nat :=
  let s : SipState := ⟨0x736f6d6570736575 ^^^ k0, 0x646f72616e646f6d ^^^ k1,
                       0x6c7967656e657261 ^^^ k0, 0x7465646279746573 ^^^ k1⟩
  let (s, rem) := sipBlocks c s msg
  let b := ((msg.length % 256) <<< 56) ||| leWord rem
  let s := sipCompress c s b
  let s := { s with v2 := s.v2 ^^^ 0xff }
  let s := sipRounds d s
  s.v0 ^^^ s.v1 ^^^ s.v2 ^^^ s.v3

/-- SipHash-1-3, the algorithm behind `DefaultHasher`. -/
def siphash13 (k0 k1 : Nat) (msg : List Nat) : Nat := siphash 1 3 k0 k1 msg

/-- Lowercase hex digit for a value below 16. -/
def hexDigit (d : Nat) : Char :=
  if d < 10 then Char.ofNat (48 + d) else Char.ofNat (87 + d)

/-- Hex digits of `n`, fuelled structural recursion (enough fuel for u64). -/
def toHexAux : Nat → Nat → List Char
  | 0, _ => []
  | fuel + 1, n => if n = 0 then [] else toHexAux fuel (n / 16) ++ [hexDigit (n % 16)]

/-- Rust `format!("{:x}", n)` for a 64-bit value: minimal lowercase hex. -/
def toHex (n : Nat) : String :=
  if n = 0 then "0" else ⟨toHexAux 64 n⟩

/-! ## CacheManager (src/context/cache.rs) -/

/-- The prompt normalization inside `CacheManager::hash_prompt`:
`prompt.to_lowercase().trim()`. -/
def normalizePrompt (prompt : String) : String := trimStr (toLowerStr prompt)

/-- UTF-8 bytes of an ASCII string. -/
def strBytes (s : String) : List Nat := s.data.map Char.toNat

/-- `CacheManager::hash_prompt`: `DefaultHasher` (SipHash-1-3, keys 0,0)
over the normalized prompt; `Hash for str` writes the bytes and then a
0xff byte; the 64-bit result is rendered as lowercase hex. -/
def hash_prompt (prompt : String) : String :=
  toHex (siphash13 0 0 (strBytes (normalizePrompt prompt) ++ [0xff]))

/-- `cli::Suggestion` (src/cli/commands.rs). -/
structure Suggestion where
  command : String
  explanation : Option String
  confidence : ℚ
deriving DecidableEq, Repr

/-- One row of the `suggestions` table (sql/schema.sql columns used by
cache.rs). -/
structure SuggestionRecord where
  prompt_hash : String
  prompt : String
  suggestion : String
  explanation : Option String
  confidence : ℚ
  created_at : Int
  last_used : Int
  use_count : Int
  success_count : Int
  success_rate : ℚ
deriving DecidableEq, Repr

/-- The suggestions table, in rowid (insertion) order. -/
abbrev SuggestionTable := List SuggestionRecord

/-- The SQL admission filter of `get_suggestion`:
`created_at > datetime('now', '-7 days') AND use_count >= 5 AND
success_rate > 0.7`. -/
def admissionB (now : Int) (r : SuggestionRecord) : Bool :=
  decide (now - 604800 < r.created_at) && decide (5 ≤ r.use_count)
    && decide (mkRat 7 10 < r.success_rate)

/-- The rank key of `get_suggestion`:
`success_rate * 0.6 + confidence * 0.4`. -/
def rankKey (r : SuggestionRecord) : ℚ :=
  r.success_rate * mkRat 6 10 + r.confidence * mkRat 4 10

/-- Fold keeping the record of largest rank; a later record replaces the
current best only when its rank is strictly larger, so the first maximum
in list order is kept. -/
def bestBy (b : SuggestionRecord) (l : SuggestionTable) : SuggestionRecord :=
  l.foldl (fun best x => if rankKey best < rankKey x then x else best) b

/-- `ORDER BY (success_rate * 0.6 + confidence * 0.4) DESC LIMIT 1`:
the row of maximal rank, if any. -/
def pickMax : SuggestionTable → Option SuggestionRecord
  | [] => none
  | r :: rs => some (bestBy r rs)

/-- `CacheManager::update_suggestion_usage`: bump `use_count` and refresh
`last_used` on every row whose `prompt_hash` matches. -/
def update_suggestion_usage (now : Int) (h : String) (table : SuggestionTable) :
    SuggestionTable :=
  table.map fun r =>
    if r.prompt_hash == h then
      { r with last_used := now, use_count := r.use_count + 1 }
    else r

/-- The WHERE clause of `get_suggestion`: rows matching the prompt hash
that pass the admission filter. -/
def lookupFilter (now : Int) (h : String) (table : SuggestionTable) :
    SuggestionTable :=
  table.filter fun r => r.prompt_hash == h && admissionB now r

/-- `CacheManager::get_suggestion`: filter the table by the prompt hash
and the admission predicate, take the rank maximum; on a hit, build the
returned `Suggestion` from that row and run `update_suggestion_usage`;
on a miss return `none` and leave the table alone. -/
def get_suggestion (now : Int) (table : SuggestionTable) (prompt : String) :
    Option Suggestion × SuggestionTable :=
  match pickMax (lookupFilter now (hash_prompt prompt) table) with
  | none => (none, table)
  | some r =>
      (some ⟨r.suggestion, r.explanation, r.confidence⟩,
       update_suggestion_usage now (hash_prompt prompt) table)

/-- The per-row update of `CacheManager::record_suggestion_usage`; all
right-hand sides use the pre-update column values, as in a single SQL
UPDATE statement. -/
def feedbackRow (now : Int) (success : Bool) (r : SuggestionRecord) :
    SuggestionRecord :=
  { r with
    use_count := r.use_count + 1,
    success_count := r.success_count + (if success then 1 else 0),
    success_rate :=
      Rat.divInt (r.success_count + (if success then 1 else 0)) (r.use_count + 1),
    last_used := now }

/-- `CacheManager::record_suggestion_usage`: one UPDATE over all rows
matching `(prompt_hash, suggestion)`; an UPDATE matching zero rows is
still a success, so the function always returns `ok`. -/
def record_suggestion_usage (now : Int) (table : SuggestionTable)
    (prompt command : String) (success : Bool) : Except Unit SuggestionTable :=
  let h := hash_prompt prompt
  Except.ok (table.map fun r =>
    if r.prompt_hash == h && r.suggestion == command then feedbackRow now success r
    else r)

/-- The figures reported by `CacheManager::get_cache_stats`. -/
structure CacheStats where
  total : Nat
  readyForReuse : Nat
  avgSuccessRate : ℚ
  highSuccess : Nat
deriving DecidableEq, Repr

/-- `CacheManager::get_cache_stats`: COUNT(*); COUNT over
`use_count >= 5 AND success_rate > 0.7`; AVG(success_rate) and COUNT(*)
both over `success_rate > 0.8`. When no row passes that filter, SQL AVG
is NULL and the `row.get` of the f64 column fails, so the whole call
returns an error and reports nothing. A SELECT-only sequence: the table
is returned unchanged on every path. -/
def get_cache_stats (table : SuggestionTable) :
    Except Unit CacheStats × SuggestionTable :=
  (if (table.filter fun r => decide (mkRat 8 10 < r.success_rate)).length = 0 then
    Except.error ()
  else
    Except.ok
      ⟨table.length,
       (table.filter fun r =>
         decide (5 ≤ r.use_count) && decide (mkRat 7 10 < r.success_rate)).length,
       ((table.filter fun r => decide (mkRat 8 10 < r.success_rate)).map
           (fun r => r.success_rate)).sum /
         (((table.filter fun r => decide (mkRat 8 10 < r.success_rate)).length : ℚ)),
       (table.filter fun r => decide (mkRat 8 10 < r.success_rate)).length⟩,
   table)

/-! ## StorageManager (src/context/storage.rs)

The ledger document is a plain string; `Utc::now().format("%Y-%m-%d")`
is passed in as the `today` argument; filesystem effects are made
explicit (the outcome records whether and what was written). -/

/-- Accumulator of the line loop in `update_existing_section`. -/
structure UesState where
  result : List String
  in_section : Bool
  section_found : Bool

/-- One iteration of the line loop of
`StorageManager::update_existing_section`. Note the branch structure of
the source: a line inside the target section that is neither a `### `
header nor a `Last updated:` line falls through every branch and is
pushed nowhere. -/
def uesStep (header new_content today : String) (st : UesState) (line : String) :
    UesState :=
  if strStartsWith line "### " then
    let result :=
      if st.in_section then
        st.result ++ ["Last updated: " ++ today, new_content, ""]
      else st.result
    let in_sec := line == header
    ⟨result ++ [line], in_sec, st.section_found || in_sec⟩
  else if st.in_section && strStartsWith line "Last updated:" then
    ⟨st.result, st.in_section, st.section_found⟩
  else if !st.in_section then
    ⟨st.result ++ [line], st.in_section, st.section_found⟩
  else
    ⟨st.result, st.in_section, st.section_found⟩

/-- `StorageManager::update_existing_section`. -/
def update_existing_section (content sectionName new_content today : String) : String :=
  let header := "### " ++ sectionName
  let st := (rustLines content).foldl (uesStep header new_content today) ⟨[], false, false⟩
  let result :=
    if st.in_section && st.section_found then
      st.result ++ ["Last updated: " ++ today, new_content]
    else st.result
  String.intercalate "\n" result

/-- First character index at which `needle` occurs in `hay`
(Rust `str::find` in the ASCII fragment, where byte and character
positions coincide). -/
def findSubAux (needle : List Char) : List Char → Option Nat
  | [] => if needle.isEmpty then some 0 else none
  | c :: rest =>
      if needle.isPrefixOf (c :: rest) then some 0
      else (findSubAux needle rest).map (· + 1)

/-- `StorageManager::add_new_section`: insert the new section block
before the `## Recent Context` anchor, or append it at the end. -/
def add_new_section (content sectionName new_content today : String) : String :=
  let section_content :=
    "\n### " ++ sectionName ++ "\nLast updated: " ++ today ++ "\n" ++ new_content ++ "\n"
  match findSubAux ("## Recent Context").data content.data with
  | some pos =>
      ⟨content.data.take pos ++ section_content.data ++ content.data.drop pos⟩
  | none => content ++ section_content

/-- Observable outcome of `append_to_context`: what (if anything) was
written to the context file, and whether the call returned `Ok`. -/
structure AppendOutcome where
  written : Option String
  isOk : Bool
deriving DecidableEq, Repr

/-- `StorageManager::append_to_context`, with the outcomes of the two
fallible filesystem steps (`backup_context_file()?` and
`fs::write(...)?`) made explicit. The source propagates a backup
failure with `?` before reaching the write. -/
def append_to_context (doc sectionName content today : String)
    (backupOk writeOk : Bool) : AppendOutcome :=
  let updated :=
    if containsStr doc ("### " ++ sectionName) then
      update_existing_section doc sectionName content today
    else
      add_new_section doc sectionName content today
  if !backupOk then ⟨none, false⟩
  else if !writeOk then ⟨none, false⟩
  else ⟨some updated, true⟩

/-! ## ContextManager (src/context/manager.rs) -/

/-- Keyword test of the containers category (`Docker` branch). -/
def kwContainers (pl : String) : Bool :=
  containsStr pl "docker" || containsStr pl "container"

/-- Keyword test of the orchestration category (`Kubernetes` branch). -/
def kwOrchestration (pl : String) : Bool :=
  containsStr pl "kubectl" || containsStr pl "pod" || containsStr pl "kubernetes"

/-- Keyword test of the version-control category (`Git` branch). -/
def kwVersionControl (pl : String) : Bool :=
  containsStr pl "git" || containsStr pl "commit" || containsStr pl "branch"

/-- Keyword test of the file-management category. -/
def kwFiles (pl : String) : Bool :=
  containsStr pl "file" || containsStr pl "find" || containsStr pl "ls"

/-- Keyword test of the process-management category. -/
def kwProcess (pl : String) : Bool :=
  containsStr pl "process" || containsStr pl "kill" || containsStr pl "ps"

/-- The keyword dispatch of `ContextManager::categorize_prompt`, applied
to the lowercased prompt: the branches are tried in the source order
Docker, Kubernetes, Git, File Management, Process Management. -/
def categorize_lower (pl : String) : String :=
  if kwContainers pl then "Docker"
  else if kwOrchestration pl then "Kubernetes"
  else if kwVersionControl pl then "Git"
  else if kwFiles pl then "File Management"
  else if kwProcess pl then "Process Management"
  else "General"

/-- `ContextManager::categorize_prompt`. -/
def categorize_prompt (prompt : String) : String :=
  categorize_lower (toLowerStr prompt)

/-! ## Interactive selector (src/cli/output.rs)

The blocking terminal event stream is made explicit as a list of key
events, each carrying the delay (in milliseconds) since the previous
read returned; `event::poll(timeout)` succeeds exactly when the next
pending event arrives within the timeout. -/

/-- The crossterm key codes the selector distinguishes. -/
inductive KeyCode where
  | up | down | enter | tab | esc
  | char (c : Char)
  | other
deriving DecidableEq, Repr

/-- `SelectAction` (src/cli/output.rs). -/
inductive SelectAction where
  | execute (i : Nat)
  | output (i : Nat)
  | followup (i : Nat)
  | cancel
deriving DecidableEq, Repr

/-- A pending terminal event: key code plus arrival delay in ms. -/
structure TimedKey where
  delay : Nat
  code : KeyCode
deriving DecidableEq, Repr

/-- `OutputFormatter::handle_escape_key`: poll up to 300ms for a second
key; a second Escape resolves Cancel, any other key resolves
Followup(selected) (consuming that key), a timeout resolves
Followup(selected). Returns the action and the remaining event queue. -/
def handle_escape_key (selected : Nat) (pending : List TimedKey) :
    Option SelectAction × List TimedKey :=
  match pending with
  | [] => (some (SelectAction.followup selected), [])
  | e :: rest =>
      if e.delay ≤ 300 then
        if e.code = KeyCode.esc then (some SelectAction.cancel, rest)
        else (some (SelectAction.followup selected), rest)
      else (some (SelectAction.followup selected), e :: rest)

/-- `OutputFormatter::handle_key_input`: cursor movement is clamped,
Enter/Tab/f resolve immediately, Escape enters the double-escape
sub-protocol, anything else is ignored. Returns the new cursor, the
action (if resolved), and the remaining event queue. -/
def handle_key_input (key : KeyCode) (selected items_len : Nat)
    (pending : List TimedKey) : Nat × Option SelectAction × List TimedKey :=
  match key with
  | KeyCode.up => (selected - 1, none, pending)
  | KeyCode.down =>
      (if selected < items_len - 1 then selected + 1 else selected, none, pending)
  | KeyCode.enter => (selected, some (SelectAction.execute selected), pending)
  | KeyCode.tab => (selected, some (SelectAction.output selected), pending)
  | KeyCode.char c =>
      if c = 'f' ∨ c = 'F' then (selected, some (SelectAction.followup selected), pending)
      else (selected, none, pending)
  | KeyCode.esc =>
      let (a, p) := handle_escape_key selected pending
      (selected, a, p)
  | KeyCode.other => (selected, none, pending)

/-- `OutputFormatter::selection_loop` over an explicit event queue:
read the next key, dispatch it, stop at the first resolved action
(`none` when the queue is exhausted unresolved; the real loop would
block there). An Escape always resolves, so the recursion only
continues on keys that leave the queue untouched. -/
def selection_loop (items_len : Nat) : Nat → List TimedKey → Option SelectAction
  | _, [] => none
  | selected, e :: rest =>
      match e.code with
      | KeyCode.esc => (handle_escape_key selected rest).1
      | k =>
          match handle_key_input k selected items_len rest with
          | (_, some a, _) => some a
          | (sel, none, _) => selection_loop items_len sel rest

/-! ## Derived predicates and concrete sample data -/

/-- The lookup admission predicate in propositional form: created less
than 7 days ago, used at least 5 times, success rate above 0.7. -/
def lookupEligible (now : Int) (r : SuggestionRecord) : Prop :=
  now - 604800 < r.created_at ∧ 5 ≤ r.use_count ∧ mkRat 7 10 < r.success_rate

instance (now : Int) (r : SuggestionRecord) : Decidable (lookupEligible now r) := by
  unfold lookupEligible; infer_instance

/-- A record created exactly 7 days (604800 s) before the lookup instant
604800, otherwise well above every admission threshold. -/
def cr1 : SuggestionRecord :=
  ⟨hash_prompt "test", "test", "cmd", none, mkRat 1 2, 0, 0, 5, 4, mkRat 4 5⟩

/-- A matching record for the feedback-update witnesses. -/
def fr1 : SuggestionRecord :=
  ⟨hash_prompt "t", "t", "x", none, mkRat 1 2, 0, 0, 5, 3, mkRat 3 5⟩

/-- An 8-day-old record with use_count 5 and success rate 0.9: counted
as ready-for-reuse by the stats query although lookup would reject it. -/
def cs1 : SuggestionRecord :=
  ⟨hash_prompt "s", "s", "c", none, mkRat 1 2, 0, 0, 5, 4, mkRat 9 10⟩

/-- A record with success rate 0.5: alone it makes the stats AVG read
fail, and next to `cs1` it drags the all-records mean below the
reported one. -/
def cs2 : SuggestionRecord :=
  ⟨hash_prompt "s2", "s2", "c2", none, mkRat 1 2, 0, 0, 0, 0, mkRat 1 2⟩

/-- A fresh, admissible record; shares its prompt hash with `cm2`. -/
def cm1 : SuggestionRecord :=
  ⟨hash_prompt "t", "t", "cmd1", none, mkRat 1 2, 900, 900, 5, 4, mkRat 9 10⟩

/-- A fresh record sharing `cm1`'s prompt hash but inadmissible
(use_count 0); a lookup hit must not leave it untouched. -/
def cm2 : SuggestionRecord :=
  ⟨hash_prompt "t", "t", "cmd2", none, mkRat 1 2, 900, 900, 0, 0, mkRat 1 2⟩

/-- A ledger document with a `### Git` section holding a prior entry. -/
def ledgerDoc : String :=
  "## Command Patterns\n\n### Git\nLast updated: 2024-01-01\nold entry\n\n### Docker\nLast updated: 2024-01-01\nstuff\n"

/-! ## Helper lemmas -/

theorem list_map_id_of_mem {α : Type} (f : α → α) :
    ∀ l : List α, (∀ x ∈ l, f x = x) → l.map f = l
  | [], _ => rfl
  | x :: xs, h => by
      have hx := h x (List.mem_cons_self x xs)
      have hxs := list_map_id_of_mem f xs fun y hy => h y (List.mem_cons_of_mem x hy)
      simp [hx, hxs]

/-! ## Claim theorems -/

/-- C3 (code evaluation): `update_existing_section` on a section that
already holds an entry produces a document in which that prior entry no
longer occurs — the section body is replaced, not accumulated; only the
fresh marker and the new text survive. -/
theorem ledger_append_drops_prior_entries :
    containsStr ledgerDoc "old entry" = true ∧
    update_existing_section ledgerDoc "Git" "new entry" "2024-06-01" =
      "## Command Patterns\n\n### Git\nLast updated: 2024-06-01\nnew entry\n\n### Docker\nLast updated: 2024-01-01\nstuff" ∧
    containsStr (update_existing_section ledgerDoc "Git" "new entry" "2024-06-01")
      "old entry" = false ∧
    containsStr (update_existing_section ledgerDoc "Git" "new entry" "2024-06-01")
      "new entry" = true := by decide

/-- C4 (counterexample): when the backup step fails, `append_to_context`
returns an error and the content write never happens, even though the
write would have succeeded; with a successful backup the same call does
write. -/
theorem append_backup_failure_counterexample :
    (append_to_context ledgerDoc "Git" "x" "2024-06-01" false true).written = none ∧
    (append_to_context ledgerDoc "Git" "x" "2024-06-01" false true).isOk = false ∧
    (append_to_context ledgerDoc "Git" "x" "2024-06-01" true true).written.isSome
      = true :=
  ⟨rfl, rfl, rfl⟩

/-- C4 (amended): a backup failure aborts `append_to_context` before the
content write and surfaces an error; a content-write failure after a
successful backup is also surfaced; the updated document is written
exactly when both steps succeed. -/
theorem append_backup_gate (doc sectionName content today : String) :
    (∀ writeOk, append_to_context doc sectionName content today false writeOk =
      ⟨none, false⟩) ∧
    append_to_context doc sectionName content today true false = ⟨none, false⟩ ∧
    append_to_context doc sectionName content today true true =
      ⟨some (if containsStr doc ("### " ++ sectionName) then
               update_existing_section doc sectionName content today
             else add_new_section doc sectionName content today), true⟩ :=
  ⟨fun _ => rfl, rfl, rfl⟩

/-- C5: from the pending-escape state, a second Escape inside the 300ms
window resolves Cancel; any other key inside the window resolves
Followup(selected) with that key consumed (the outcome does not depend
on which key it was, nor on later events); no event inside the window
(an empty queue, or a next event arriving after 300ms) resolves
Followup(selected). -/
theorem escape_double_key_protocol (items_len selected d1 d2 d3 : Nat)
    (k : KeyCode) (rest : List TimedKey) (hin : d2 ≤ 300) (hout : 300 < d3) :
    selection_loop items_len selected
        (⟨d1, KeyCode.esc⟩ :: ⟨d2, KeyCode.esc⟩ :: rest) = some SelectAction.cancel ∧
    (k ≠ KeyCode.esc →
      selection_loop items_len selected (⟨d1, KeyCode.esc⟩ :: ⟨d2, k⟩ :: rest) =
        some (SelectAction.followup selected)) ∧
    selection_loop items_len selected [⟨d1, KeyCode.esc⟩] =
      some (SelectAction.followup selected) ∧
    selection_loop items_len selected (⟨d1, KeyCode.esc⟩ :: ⟨d3, k⟩ :: rest) =
      some (SelectAction.followup selected) := by
  refine ⟨?_, ?_, ?_, ?_⟩
  · simp [selection_loop, handle_escape_key, hin]
  · intro hk
    simp [selection_loop, handle_escape_key, hin, hk]
  · simp [selection_loop, handle_escape_key]
  · simp [selection_loop, handle_escape_key, Nat.not_le.mpr hout]

/-- C5 (witness): the protocol at a concrete queue state. -/
theorem escape_double_key_protocol_witness :
    selection_loop 3 1 [⟨0, KeyCode.esc⟩, ⟨100, KeyCode.esc⟩] =
        some SelectAction.cancel ∧
    selection_loop 3 1 [⟨0, KeyCode.esc⟩, ⟨100, KeyCode.up⟩] =
        some (SelectAction.followup 1) ∧
    selection_loop 3 1 [⟨0, KeyCode.esc⟩] = some (SelectAction.followup 1) ∧
    selection_loop 3 1 [⟨0, KeyCode.esc⟩, ⟨301, KeyCode.up⟩] =
        some (SelectAction.followup 1) := by
  have h := escape_double_key_protocol 3 1 0 100 301 KeyCode.up []
    (by decide) (by decide)
  exact ⟨h.1, h.2.1 (by decide), h.2.2.1, h.2.2.2⟩

/-- C9 (counterexample): a prompt containing both version-control
keywords (git, commit) and a containers keyword (docker) is categorized
as Docker (containers), not Git (version-control): the containers
branch is tested first. -/
theorem categorize_vc_vs_containers_counterexample :
    kwVersionControl (toLowerStr "commit this git repo inside a docker container")
      = true ∧
    kwContainers (toLowerStr "commit this git repo inside a docker container")
      = true ∧
    categorize_prompt "commit this git repo inside a docker container" = "Docker" ∧
    categorize_prompt "commit this git repo inside a docker container" ≠ "Git" := by
  decide

/-- C9 (amended): categorization is total into the closed six-element
set, the categories are tested in the order containers, orchestration,
version-control, file-management, process-management, the first
matching category wins, and General is returned exactly when no keyword
of any other category matches; in particular a prompt with keywords of
both version-control and containers is categorized as containers. -/
theorem categorize_prompt_order (p : String) :
    (categorize_prompt p = "Docker" ∨ categorize_prompt p = "Kubernetes" ∨
     categorize_prompt p = "Git" ∨ categorize_prompt p = "File Management" ∨
     categorize_prompt p = "Process Management" ∨ categorize_prompt p = "General") ∧
    (categorize_prompt p = "Docker" ↔ kwContainers (toLowerStr p) = true) ∧
    (categorize_prompt p = "Kubernetes" ↔
      (kwContainers (toLowerStr p) = false ∧
       kwOrchestration (toLowerStr p) = true)) ∧
    (categorize_prompt p = "Git" ↔
      (kwContainers (toLowerStr p) = false ∧
       kwOrchestration (toLowerStr p) = false ∧
       kwVersionControl (toLowerStr p) = true)) ∧
    (categorize_prompt p = "File Management" ↔
      (kwContainers (toLowerStr p) = false ∧
       kwOrchestration (toLowerStr p) = false ∧
       kwVersionControl (toLowerStr p) = false ∧
       kwFiles (toLowerStr p) = true)) ∧
    (categorize_prompt p = "Process Management" ↔
      (kwContainers (toLowerStr p) = false ∧
       kwOrchestration (toLowerStr p) = false ∧
       kwVersionControl (toLowerStr p) = false ∧
       kwFiles (toLowerStr p) = false ∧
       kwProcess (toLowerStr p) = true)) ∧
    (categorize_prompt p = "General" ↔
      (kwContainers (toLowerStr p) = false ∧
       kwOrchestration (toLowerStr p) = false ∧
       kwVersionControl (toLowerStr p) = false ∧
       kwFiles (toLowerStr p) = false ∧
       kwProcess (toLowerStr p) = false)) := by
  unfold categorize_prompt categorize_lower
  cases hC : kwContainers (toLowerStr p) <;>
    cases hO : kwOrchestration (toLowerStr p) <;>
      cases hV : kwVersionControl (toLowerStr p) <;>
        cases hF : kwFiles (toLowerStr p) <;>
          cases hP : kwProcess (toLowerStr p) <;>
            simp

/-- C9 (witness): the amended characterization applied to a concrete
prompt. -/
theorem categorize_prompt_order_witness :
    categorize_prompt "deploy the docker image" = "Docker" :=
  (categorize_prompt_order "deploy the docker image").2.1.mpr (by decide)

/-- C10: a feedback call whose (prompt hash, command) pair matches no
stored record returns success and leaves the suggestions table
completely unchanged: a silent no-op, neither an insertion nor a
failure. -/
theorem record_feedback_unmatched_noop (now : Int) (table : SuggestionTable)
    (prompt command : String) (success : Bool)
    (h : ∀ r ∈ table, ¬(r.prompt_hash = hash_prompt prompt ∧ r.suggestion = command)) :
    record_suggestion_usage now table prompt command success = Except.ok table := by
  unfold record_suggestion_usage
  refine congrArg Except.ok (list_map_id_of_mem _ table fun r hr => ?_)
  have hcond : (r.prompt_hash == hash_prompt prompt && r.suggestion == command)
      = false := by
    by_cases h1 : r.prompt_hash = hash_prompt prompt
    · by_cases h2 : r.suggestion = command
      · exact absurd ⟨h1, h2⟩ (h r hr)
      · simp [h2]
    · simp [h1]
  simp [hcond]

/-- C10 (witness): no-op feedback on a concrete one-row table whose
only record stores a different command. -/
theorem record_feedback_unmatched_noop_witness :
    record_suggestion_usage 100 [fr1] "t" "y" true = Except.ok [fr1] :=
  record_feedback_unmatched_noop 100 [fr1] "t" "y" true (by decide)

theorem bestBy_mem (b : SuggestionRecord) (l : SuggestionTable) :
    bestBy b l = b ∨ bestBy b l ∈ l := by
  induction l generalizing b with
  | nil => exact Or.inl rfl
  | cons x xs ih =>
    have h := ih (if rankKey b < rankKey x then x else b)
    simp only [bestBy, List.foldl_cons] at h ⊢
    rcases h with h | h
    · rw [h]
      by_cases hc : rankKey b < rankKey x
      · simp [hc]
      · simp [hc]
    · exact Or.inr (List.mem_cons_of_mem x h)

theorem rank_le_bestBy (b : SuggestionRecord) (l : SuggestionTable) :
    rankKey b ≤ rankKey (bestBy b l) := by
  induction l generalizing b with
  | nil => exact le_refl _
  | cons x xs ih =>
    have h := ih (if rankKey b < rankKey x then x else b)
    simp only [bestBy, List.foldl_cons] at h ⊢
    refine le_trans ?_ h
    by_cases hc : rankKey b < rankKey x
    · simp [hc]; exact le_of_lt hc
    · simp [hc]

theorem rank_mem_le_bestBy (b : SuggestionRecord) (l : SuggestionTable) :
    ∀ y ∈ l, rankKey y ≤ rankKey (bestBy b l) := by
  induction l generalizing b with
  | nil => intro y hy; exact absurd hy (List.not_mem_nil y)
  | cons x xs ih =>
    intro y hy
    simp only [bestBy, List.foldl_cons]
    rcases List.mem_cons.mp hy with rfl | hy2
    · have h1 : rankKey y ≤ rankKey (if rankKey b < rankKey y then y else b) := by
        by_cases hc : rankKey b < rankKey y
        · simp [hc]
        · simp [hc]; exact le_of_not_lt hc
      have h2 := rank_le_bestBy (if rankKey b < rankKey y then y else b) xs
      simp only [bestBy] at h2
      exact le_trans h1 h2
    · have h := ih (if rankKey b < rankKey x then x else b) y hy2
      simpa only [bestBy] using h

theorem pickMax_eq_none_iff (l : SuggestionTable) : pickMax l = none ↔ l = [] := by
  cases l <;> simp [pickMax]

theorem pickMax_mem {l : SuggestionTable} {r : SuggestionRecord}
    (h : pickMax l = some r) : r ∈ l := by
  cases l with
  | nil => simp [pickMax] at h
  | cons x xs =>
    simp only [pickMax, Option.some.injEq] at h
    rcases bestBy_mem x xs with h2 | h2
    · rw [← h, h2]; exact List.mem_cons_self x xs
    · rw [← h]; exact List.mem_cons_of_mem x h2

theorem pickMax_is_max {l : SuggestionTable} {r : SuggestionRecord}
    (h : pickMax l = some r) : ∀ y ∈ l, rankKey y ≤ rankKey r := by
  cases l with
  | nil => simp [pickMax] at h
  | cons x xs =>
    simp only [pickMax, Option.some.injEq] at h
    intro y hy
    rw [← h]
    rcases List.mem_cons.mp hy with rfl | hy2
    · exact rank_le_bestBy y xs
    · exact rank_mem_le_bestBy x xs y hy2

theorem mem_lookupFilter {now : Int} {h : String} {table : SuggestionTable}
    {r : SuggestionRecord} :
    r ∈ lookupFilter now h table ↔
      r ∈ table ∧ r.prompt_hash = h ∧ lookupEligible now r := by
  simp [lookupFilter, List.mem_filter, admissionB, lookupEligible, and_assoc]

theorem get_suggestion_eq_miss {now : Int} {table : SuggestionTable}
    {prompt : String}
    (hp : pickMax (lookupFilter now (hash_prompt prompt) table) = none) :
    get_suggestion now table prompt = (none, table) := by
  unfold get_suggestion; rw [hp]

theorem get_suggestion_eq_hit {now : Int} {table : SuggestionTable}
    {prompt : String} {r : SuggestionRecord}
    (hp : pickMax (lookupFilter now (hash_prompt prompt) table) = some r) :
    get_suggestion now table prompt =
      (some ⟨r.suggestion, r.explanation, r.confidence⟩,
       update_suggestion_usage now (hash_prompt prompt) table) := by
  unfold get_suggestion; rw [hp]

/-- C2: a feedback call on a table holding a record that matches the
(prompt hash, command) pair returns success and updates that record:
its use_count grows by exactly 1, its success_count grows by 1 exactly
when the outcome is a success, and its stored success_rate equals
success_count / use_count computed from the post-call counters. -/
theorem record_feedback_updates_matching_row
    (now : Int) (table : SuggestionTable) (prompt command : String) (success : Bool)
    (i : Nat) (hi : i < table.length)
    (hhash : (table.get ⟨i, hi⟩).prompt_hash = hash_prompt prompt)
    (hcmd : (table.get ⟨i, hi⟩).suggestion = command) :
    ∃ post : SuggestionTable,
      record_suggestion_usage now table prompt command success = Except.ok post ∧
      ∃ hp : i < post.length,
        (post.get ⟨i, hp⟩).use_count = (table.get ⟨i, hi⟩).use_count + 1 ∧
        (success = true →
          (post.get ⟨i, hp⟩).success_count = (table.get ⟨i, hi⟩).success_count + 1) ∧
        (success = false →
          (post.get ⟨i, hp⟩).success_count = (table.get ⟨i, hi⟩).success_count) ∧
        (post.get ⟨i, hp⟩).success_rate =
          ((post.get ⟨i, hp⟩).success_count : ℚ) / ((post.get ⟨i, hp⟩).use_count : ℚ) := by
  unfold record_suggestion_usage
  refine ⟨_, rfl, ?_⟩
  have hp : i < (table.map fun r =>
      if r.prompt_hash == hash_prompt prompt && r.suggestion == command then
        feedbackRow now success r else r).length := by
    simpa using hi
  refine ⟨hp, ?_⟩
  have hget : ∀ hq, (table.map fun r =>
      if r.prompt_hash == hash_prompt prompt && r.suggestion == command then
        feedbackRow now success r else r).get ⟨i, hq⟩ =
      if (table.get ⟨i, hi⟩).prompt_hash == hash_prompt prompt &&
          (table.get ⟨i, hi⟩).suggestion == command then
        feedbackRow now success (table.get ⟨i, hi⟩) else table.get ⟨i, hi⟩ := by
    intro hq
    simp [List.get_map]
  have hcond : ((table.get ⟨i, hi⟩).prompt_hash == hash_prompt prompt &&
      (table.get ⟨i, hi⟩).suggestion == command) = true := by
    rw [hhash, hcmd]; simp
  rw [hget hp, if_pos hcond]
  refine ⟨rfl, ?_, ?_, ?_⟩
  · intro hs; simp [feedbackRow, hs]
  · intro hs; simp [feedbackRow, hs]
  · simp only [feedbackRow]
    exact Rat.divInt_eq_div _ _

/-- C2 (witness): the feedback update at a concrete one-row table. -/
theorem record_feedback_updates_matching_row_witness :
    ∃ post : SuggestionTable,
      record_suggestion_usage 100 [fr1] "t" "x" true = Except.ok post ∧
      ∃ hp : 0 < post.length,
        (post.get ⟨0, hp⟩).use_count =
          (([fr1] : SuggestionTable).get ⟨0, by decide⟩).use_count + 1 ∧
        (true = true →
          (post.get ⟨0, hp⟩).success_count =
            (([fr1] : SuggestionTable).get ⟨0, by decide⟩).success_count + 1) ∧
        (true = false →
          (post.get ⟨0, hp⟩).success_count =
            (([fr1] : SuggestionTable).get ⟨0, by decide⟩).success_count) ∧
        (post.get ⟨0, hp⟩).success_rate =
          ((post.get ⟨0, hp⟩).success_count : ℚ) / ((post.get ⟨0, hp⟩).use_count : ℚ) :=
  record_feedback_updates_matching_row 100 [fr1] "t" "x" true 0 (by decide) rfl rfl

/-- C1 (amended): lookup returns a suggestion exactly when some stored
record matches the normalized prompt hash and satisfies the admission
predicate (age strictly below 7 days, use_count at least 5,
success_rate above 0.7), and the returned suggestion is built from a
matching admissible record of maximal rank
success_rate * 0.6 + confidence * 0.4; records failing the admission
predicate are never selected. -/
theorem get_suggestion_admission (now : Int) (table : SuggestionTable)
    (prompt : String) :
    ((get_suggestion now table prompt).1.isSome ↔
      ∃ r ∈ table, r.prompt_hash = hash_prompt prompt ∧ lookupEligible now r) ∧
    (∀ s, (get_suggestion now table prompt).1 = some s →
      ∃ r ∈ table, r.prompt_hash = hash_prompt prompt ∧ lookupEligible now r ∧
        s.command = r.suggestion ∧ s.explanation = r.explanation ∧
        s.confidence = r.confidence ∧
        ∀ q ∈ table, q.prompt_hash = hash_prompt prompt → lookupEligible now q →
          rankKey q ≤ rankKey r) := by
  cases hp : pickMax (lookupFilter now (hash_prompt prompt) table) with
  | none =>
    have hfe : lookupFilter now (hash_prompt prompt) table = [] :=
      (pickMax_eq_none_iff _).mp hp
    rw [get_suggestion_eq_miss hp]
    constructor
    · simp only [Option.isSome_none, Bool.false_eq_true, false_iff]
      rintro ⟨r, hrt, hrh, hre⟩
      have : r ∈ lookupFilter now (hash_prompt prompt) table :=
        mem_lookupFilter.mpr ⟨hrt, hrh, hre⟩
      rw [hfe] at this
      exact absurd this (List.not_mem_nil r)
    · intro s hs
      exact absurd hs (by simp)
  | some r =>
    have hrf : r ∈ lookupFilter now (hash_prompt prompt) table := pickMax_mem hp
    obtain ⟨hrt, hrh, hre⟩ := mem_lookupFilter.mp hrf
    rw [get_suggestion_eq_hit hp]
    constructor
    · simp only [Option.isSome_some, true_iff]
      exact ⟨r, hrt, hrh, hre⟩
    · intro s hs
      simp only [Option.some.injEq] at hs
      refine ⟨r, hrt, hrh, hre, ?_, ?_, ?_, ?_⟩
      · rw [← hs]
      · rw [← hs]
      · rw [← hs]
      · intro q hqt hqh hqe
        exact pickMax_is_max hp q (mem_lookupFilter.mpr ⟨hqt, hqh, hqe⟩)

/-- C1 (witness): a hit on a concrete admissible record. -/
theorem get_suggestion_admission_witness :
    ∃ r ∈ ([cm1] : SuggestionTable), r.prompt_hash = hash_prompt "t" ∧
      lookupEligible 1000 r ∧
      ("cmd1" : String) = r.suggestion ∧ (none : Option String) = r.explanation ∧
      mkRat 1 2 = r.confidence ∧
      ∀ q ∈ ([cm1] : SuggestionTable), q.prompt_hash = hash_prompt "t" →
        lookupEligible 1000 q → rankKey q ≤ rankKey r :=
  (get_suggestion_admission 1000 [cm1] "t").2 ⟨"cmd1", none, mkRat 1 2⟩ (by decide)

/-- C1 (counterexample): a record whose age is exactly 7 days (604800
seconds) and which meets the use_count and success_rate thresholds is
rejected by lookup, although the claim admits records of age up to and
including 7 days. -/
theorem lookup_age_boundary_counterexample :
    cr1.prompt_hash = hash_prompt "test" ∧
    (604800 : Int) - cr1.created_at = 604800 ∧
    5 ≤ cr1.use_count ∧ mkRat 7 10 < cr1.success_rate ∧
    (get_suggestion 604800 [cr1] "test").1 = none := by decide

/-- C7 (amended): when no record has success_rate > 0.8, stats() errors
(the SQL AVG is NULL and the float column read fails) and reports
nothing; otherwise the report gives the total record count; a
ready-for-reuse count over use_count ≥ 5 and success_rate > 0.7 only
(the 7-day age condition of the lookup admission predicate is not
applied); the count of records with success_rate > 0.8; and a mean
success rate computed over the records with success_rate > 0.8 only;
on every path the table is left unchanged. -/
theorem cache_stats_shape (table : SuggestionTable) :
    (get_cache_stats table).2 = table ∧
    (table.countP (fun r => decide (mkRat 8 10 < r.success_rate)) = 0 →
      (get_cache_stats table).1 = Except.error ()) ∧
    (∀ st, (get_cache_stats table).1 = Except.ok st →
      table.countP (fun r => decide (mkRat 8 10 < r.success_rate)) ≠ 0 ∧
      st.total = table.length ∧
      st.readyForReuse =
        table.countP (fun r => decide (5 ≤ r.use_count ∧ mkRat 7 10 < r.success_rate)) ∧
      st.highSuccess = table.countP (fun r => decide (mkRat 8 10 < r.success_rate)) ∧
      st.avgSuccessRate =
        ((table.filter fun r => decide (mkRat 8 10 < r.success_rate)).map
            (fun r => r.success_rate)).sum /
          (((table.filter fun r => decide (mkRat 8 10 < r.success_rate)).length : ℚ))) := by
  have hfun : (fun r : SuggestionRecord =>
      decide (5 ≤ r.use_count ∧ mkRat 7 10 < r.success_rate)) =
      (fun r : SuggestionRecord =>
        decide (5 ≤ r.use_count) && decide (mkRat 7 10 < r.success_rate)) := by
    funext r
    exact Bool.decide_and _ _
  refine ⟨rfl, ?_, ?_⟩
  · intro hz
    rw [List.countP_eq_length_filter] at hz
    simp only [get_cache_stats]
    rw [if_pos hz]
  · intro st hst
    by_cases hz : (table.filter fun r => decide (mkRat 8 10 < r.success_rate)).length = 0
    · simp only [get_cache_stats] at hst
      rw [if_pos hz] at hst
      exact absurd hst (by simp)
    · simp only [get_cache_stats] at hst
      rw [if_neg hz] at hst
      simp only [Except.ok.injEq] at hst
      subst hst
      refine ⟨by rw [List.countP_eq_length_filter]; exact hz, rfl, ?_, ?_, rfl⟩
      · simp only [List.countP_eq_length_filter, hfun]
      · simp only [List.countP_eq_length_filter]

/-- C7 (witness): on a one-record table whose only success rate is 0.5,
the stats call errors. -/
theorem cache_stats_shape_witness :
    (get_cache_stats [cs2]).1 = Except.error () :=
  (cache_stats_shape [cs2]).2.1 (by decide)

/-- C7 (counterexample): three divergences from the claim at concrete
caches. An 8-day-old record with use_count 5 and success_rate 0.9 fails
the lookup admission predicate yet is reported ready for reuse (1
versus 0). A cache whose only success rate is 0.5 gets no report at
all: the call errors, where the claim promises a report for every
cache state. And next to that record, the reported mean is the mean of
the rates above 0.8 (0.9), not the mean success_rate of all records
(0.7). -/
theorem cache_stats_counterexample :
    (List.countP (fun r => decide (lookupEligible 691200 r)) [cs1] = 0 ∧
      Except.map (fun st => st.readyForReuse) (get_cache_stats [cs1]).1 =
        Except.ok 1) ∧
    (get_cache_stats [cs2]).1 = Except.error () ∧
    Except.map (fun st => st.avgSuccessRate) (get_cache_stats [cs1, cs2]).1 =
      Except.ok (mkRat 9 10) ∧
    (([cs1, cs2].map fun r => r.success_rate).sum / (2 : ℚ)) = mkRat 7 10 ∧
    mkRat 9 10 ≠ mkRat 7 10 := by
  have hfil1 : List.filter (fun r => decide (mkRat 8 10 < r.success_rate)) [cs1]
      = [cs1] := by decide
  have hfil2 : List.filter (fun r => decide (mkRat 8 10 < r.success_rate)) [cs2]
      = [] := by decide
  have hfil12 : List.filter (fun r => decide (mkRat 8 10 < r.success_rate)) [cs1, cs2]
      = [cs1] := by decide
  refine ⟨⟨by decide, ?_⟩, ?_, ?_, ?_, by decide⟩
  · simp only [get_cache_stats]
    rw [if_neg (by rw [hfil1]; decide)]
    simp only [Except.map, Except.ok.injEq]
    decide
  · simp only [get_cache_stats]
    rw [if_pos (by rw [hfil2]; rfl)]
  · simp only [get_cache_stats]
    rw [if_neg (by rw [hfil12]; decide)]
    simp only [Except.map, Except.ok.injEq]
    rw [hfil12]
    have hsum : (([cs1] : SuggestionTable).map fun r => r.success_rate).sum
        = mkRat 9 10 := by
      simp [cs1]
    rw [hsum]
    simp
  · have hsum : (([cs1, cs2] : SuggestionTable).map fun r => r.success_rate).sum
        = mkRat 9 10 + mkRat 1 2 := by
      simp [cs1, cs2]
    rw [hsum, Rat.mkRat_eq_div, Rat.mkRat_eq_div, Rat.mkRat_eq_div]
    norm_num

/-- C8 (amended): a lookup miss mutates nothing; a lookup hit bumps
use_count by 1 and refreshes last_used on every record whose
prompt_hash matches the prompt (not only the returned one), leaving all
their other fields and all non-matching records unchanged. -/
theorem lookup_mutation_frame (now : Int) (table : SuggestionTable)
    (prompt : String) :
    ((get_suggestion now table prompt).1 = none →
      (get_suggestion now table prompt).2 = table) ∧
    (∀ s, (get_suggestion now table prompt).1 = some s →
      (get_suggestion now table prompt).2.length = table.length ∧
      ∀ i (hi : i < table.length) (hp : i < (get_suggestion now table prompt).2.length),
        ((table.get ⟨i, hi⟩).prompt_hash = hash_prompt prompt →
          (get_suggestion now table prompt).2.get ⟨i, hp⟩ =
            { table.get ⟨i, hi⟩ with
              last_used := now,
              use_count := (table.get ⟨i, hi⟩).use_count + 1 }) ∧
        ((table.get ⟨i, hi⟩).prompt_hash ≠ hash_prompt prompt →
          (get_suggestion now table prompt).2.get ⟨i, hp⟩ = table.get ⟨i, hi⟩)) := by
  cases hp : pickMax (lookupFilter now (hash_prompt prompt) table) with
  | none =>
    rw [get_suggestion_eq_miss hp]
    exact ⟨fun _ => rfl, fun s hs => absurd hs (by simp)⟩
  | some r =>
    rw [get_suggestion_eq_hit hp]
    refine ⟨fun h => absurd h (by simp),
      fun s _ => ⟨by simp [update_suggestion_usage], ?_⟩⟩
    intro i hi hq
    have hget : (update_suggestion_usage now (hash_prompt prompt) table).get ⟨i, hq⟩ =
        if (table.get ⟨i, hi⟩).prompt_hash == hash_prompt prompt then
          { table.get ⟨i, hi⟩ with
            last_used := now,
            use_count := (table.get ⟨i, hi⟩).use_count + 1 }
        else table.get ⟨i, hi⟩ := by
      simp [update_suggestion_usage, List.get_map]
    constructor
    · intro hmatch
      rw [hget, if_pos (by simpa using hmatch)]
    · intro hmiss
      rw [hget, if_neg (by simpa using hmiss)]

/-- C8 (witness): the frame at a concrete two-row table with a shared
prompt hash. -/
theorem lookup_mutation_frame_witness :
    (get_suggestion 1000 [cm1, cm2] "t").2.length =
      ([cm1, cm2] : SuggestionTable).length ∧
    (get_suggestion 1000 [cm1, cm2] "t").2.get
        ⟨1, by decide⟩ =
      { cm2 with last_used := 1000, use_count := cm2.use_count + 1 } := by
  have h := (lookup_mutation_frame 1000 [cm1, cm2] "t").2
    ⟨"cmd1", none, mkRat 1 2⟩ (by decide)
  exact ⟨h.1, (h.2 1 (by decide) (by rw [h.1]; decide)).1 rfl⟩

/-- C8 (counterexample): on a hit, a second record sharing the prompt
hash but not returned (its command differs from the returned one, and it
is not even admissible) still has its use_count incremented from 0 to 1,
contradicting the claim that non-returned records are unchanged. -/
theorem lookup_hit_mutates_sharing_counterexample :
    (get_suggestion 1000 [cm1, cm2] "t").1 = some ⟨"cmd1", none, mkRat 1 2⟩ ∧
    cm2.suggestion ≠ "cmd1" ∧
    cm2.use_count = 0 ∧
    ((get_suggestion 1000 [cm1, cm2] "t").2.map fun r => r.use_count) = [6, 1] := by
  decide

theorem dropWhile_append_all {α : Type} {p : α → Bool} :
    ∀ (w l : List α), (∀ c ∈ w, p c = true) →
      List.dropWhile p (w ++ l) = List.dropWhile p l
  | [], l, _ => rfl
  | c :: w, l, h => by
      have hc : p c = true := h c (List.mem_cons_self c w)
      have ih := dropWhile_append_all w l fun d hd => h d (List.mem_cons_of_mem c hd)
      simp [List.dropWhile_cons, hc, ih]

theorem dropWhile_all_nil {α : Type} {p : α → Bool} (w : List α)
    (h : ∀ c ∈ w, p c = true) : List.dropWhile p w = [] := by
  have := dropWhile_append_all w [] h
  simpa using this

theorem dropWhile_append_split {α : Type} [DecidableEq α] {p : α → Bool} :
    ∀ (x y : List α), List.dropWhile p (x ++ y) =
      if List.dropWhile p x = [] then List.dropWhile p y
      else List.dropWhile p x ++ y
  | [], y => by simp
  | c :: xs, y => by
      have ih := dropWhile_append_split (p := p) xs y
      by_cases pc : p c
      · simpa [List.cons_append, List.dropWhile_cons, pc] using ih
      · simp [List.cons_append, List.dropWhile_cons, pc]

theorem trimList_pad (w1 w2 l : List Char)
    (h1 : ∀ c ∈ w1, c.isWhitespace = true) (h2 : ∀ c ∈ w2, c.isWhitespace = true) :
    trimList (w1 ++ l ++ w2) = trimList l := by
  unfold trimList
  rw [List.append_assoc, dropWhile_append_all w1 (l ++ w2) h1,
    dropWhile_append_split l w2]
  by_cases hz : List.dropWhile Char.isWhitespace l = []
  · rw [if_pos hz, dropWhile_all_nil w2 h2, hz]
  · rw [if_neg hz, List.reverse_append,
      dropWhile_append_all _ _ fun c hc => h2 c (List.mem_reverse.mp hc)]

theorem toLower_ws_fixed {c : Char} (h : c.isWhitespace = true) : c.toLower = c := by
  have hd : c = ' ' ∨ c = '\t' ∨ c = '\r' ∨ c = '\n' := by
    simpa [Char.isWhitespace, or_assoc] using h
  rcases hd with rfl | rfl | rfl | rfl <;> decide

theorem map_toLower_ws (w : List Char) (h : ∀ c ∈ w, c.isWhitespace = true) :
    w.map Char.toLower = w :=
  list_map_id_of_mem _ w fun c hc => toLower_ws_fixed (h c hc)

theorem map_toLower_eq_of_caseEq {p q : List Char}
    (h : List.Forall₂ (fun c d => Char.toLower c = Char.toLower d) p q) :
    p.map Char.toLower = q.map Char.toLower := by
  induction h with
  | nil => rfl
  | cons hcd _ ih => simp [ih, hcd]

theorem strData_append (s t : String) : (s ++ t).data = s.data ++ t.data := by
  cases s; cases t; rfl

/-- C6 (amended): prompt hashing is deterministic, and two prompts that
agree up to letter case and leading/trailing whitespace hash
identically: padding a prompt with whitespace on either side and
changing letter case does not change its hash. Internal whitespace is
NOT normalized (see the counterexample), so equality of hashes is
guaranteed only up to case and trimmed ends. -/
theorem hash_prompt_case_trim_stable (p q w1 w2 : String)
    (hw1 : ∀ c ∈ w1.data, c.isWhitespace = true)
    (hw2 : ∀ c ∈ w2.data, c.isWhitespace = true)
    (hcase : List.Forall₂ (fun c d => Char.toLower c = Char.toLower d) p.data q.data) :
    hash_prompt p = hash_prompt p ∧
    hash_prompt (w1 ++ p ++ w2) = hash_prompt q := by
  refine ⟨rfl, ?_⟩
  suffices hn : normalizePrompt (w1 ++ p ++ w2) = normalizePrompt q by
    unfold hash_prompt
    rw [hn]
  unfold normalizePrompt trimStr toLowerStr
  refine congrArg String.mk ?_
  simp only [strData_append, List.map_append]
  rw [map_toLower_ws w1.data hw1, map_toLower_ws w2.data hw2,
    map_toLower_eq_of_caseEq hcase]
  exact trimList_pad w1.data w2.data (q.data.map Char.toLower)
    hw1 hw2

/-- C6 (witness): hash stability at concrete case/padding variants. -/
theorem hash_prompt_case_trim_stable_witness :
    hash_prompt "A b" = hash_prompt "A b" ∧
    hash_prompt (" " ++ "A b" ++ "  ") = hash_prompt "a B" :=
  hash_prompt_case_trim_stable "A b" "a B" " " "  " (by decide) (by decide)
    (List.Forall₂.cons (by decide)
      (List.Forall₂.cons (by decide)
        (List.Forall₂.cons (by decide) List.Forall₂.nil)))

/-- C6 (counterexample): two prompts that differ only in (internal)
whitespace — erasing all whitespace and lowercasing makes them equal —
receive different hashes, because normalization only lowercases and
trims the ends. -/
theorem hash_prompt_whitespace_counterexample :
    ((("a b" : String).data.filter fun c => !c.isWhitespace).map Char.toLower =
      (("a  b" : String).data.filter fun c => !c.isWhitespace).map Char.toLower) ∧
    hash_prompt "a b" ≠ hash_prompt "a  b" := by decide

end Phloem
